import Mathlib

/-!
# Verification of the claude-slackbot job orchestration pipeline

Shallow embedding of the issue-processing pipeline of the repository
(`processIssue`, the git automation service, the Slack notification
service and the shared type definitions) together with theorems about
the frozen specification claims.

Modelling conventions:
- JavaScript strings are modelled as Lean `String` / `List Char`; the
  character-level functions (`substring`, `toLowerCase`, regex character
  classes) are modelled per `Char`, which agrees with the source on the
  ASCII inputs the claims are about.
- Fallible external calls (Slack posts and edits, repository
  initialization, the code-generation call, PR creation, label
  addition, deployment wait) are oracles of type `Except String α`: an
  `Except.error` models the call raising.  Calls that the source code
  itself guards with a catch-and-convert (branch creation, commit,
  push after a successful `initializeRepo`) are oracles returning their
  typed result directly, matching the source, which never lets them
  raise past the service boundary once the git client is initialized.
- Every external call is recorded in an operation trace so that claims
  about which operations are (not) invoked are statable.
-/

namespace ClaudeSlackbot

/-! ## JavaScript character classes and string helpers -/

/-- Membership in the JavaScript regex class `\s` (the whitespace
characters recognised by `String.prototype.replace(/\s+/g, ...)`). -/
def jsWsB (c : Char) : Bool :=
  let n := c.toNat
  n = 9 || n = 10 || n = 11 || n = 12 || n = 13 || n = 32 || n = 160 ||
    n = 5760 || (8192 ≤ n && n ≤ 8202) || n = 8232 || n = 8233 ||
    n = 8239 || n = 8287 || n = 12288 || n = 65279

/-- Characters allowed by the branch-name slug class `[a-z0-9-]`. -/
def isSlugChar (c : Char) : Bool :=
  let n := c.toNat
  (97 ≤ n && n ≤ 122) || (48 ≤ n && n ≤ 57) || n = 45

/-- Characters kept by the sanitizing replace `[^a-z0-9\s-]` → empty:
lowercase letters, digits, whitespace and hyphens survive. -/
def keepChar (c : Char) : Bool :=
  isSlugChar c || jsWsB c

/-- ASCII lowercasing of one character, as `toLowerCase` acts on the
ASCII range (non-ASCII letters are stripped by the sanitizer anyway). -/
def jsToLower (c : Char) : Char :=
  if 65 ≤ c.toNat && c.toNat ≤ 90 then Char.ofNat (c.toNat + 32) else c

/-- The replace `/\s+/g → '-'`: every maximal whitespace run collapses
to a single hyphen.  The boolean argument records whether the previous
character was part of a whitespace run. -/
def collapseWsAux : Bool → List Char → List Char
  | _, [] => []
  | prevWs, c :: t =>
    if jsWsB c then
      if prevWs then collapseWsAux true t else '-' :: collapseWsAux true t
    else c :: collapseWsAux false t

/-- JavaScript `text.substring(0, n)` at character level. -/
def jsSubstringTo (s : String) (n : Nat) : String :=
  String.mk (s.toList.take n)

/-- Does the second list start with the first list? -/
def listStarts : List Char → List Char → Bool
  | [], _ => true
  | _ :: _, [] => false
  | a :: as, b :: bs => a = b && listStarts as bs

/-- JavaScript `hay.includes(needle)` on character lists. -/
def containsSub (needle : List Char) : List Char → Bool
  | [] => listStarts needle []
  | c :: t => listStarts needle (c :: t) || containsSub needle t

/-- JavaScript `hay.includes(needle)` on strings. -/
def strIncludes (hay needle : String) : Bool :=
  containsSub needle.toList hay.toList

/-! ## Branch type inference and name generation (src: issue processor
and git automation service) -/

/-- The branch naming strategy union type
`'fix' | 'feat' | 'refactor' | 'chore'`. -/
inductive BranchNamingStrategy
  | fix
  | feat
  | refactor
  | chore
deriving DecidableEq, Repr

/-- The literal string of a branch naming strategy. -/
def branchTypeStr : BranchNamingStrategy → String
  | .fix => "fix"
  | .feat => "feat"
  | .refactor => "refactor"
  | .chore => "chore"

/-- Options passed to `createBranch` (type, description, optional base
branch). -/
structure BranchOptions where
  type : BranchNamingStrategy
  description : String
  baseBranch : Option String := none
deriving DecidableEq, Repr

/-- Lowercased character list of an issue text, as
`text.toLowerCase()` produces on the ASCII range. -/
def lowerList (text : String) : List Char :=
  text.toList.map jsToLower

/-- Source `determineBranchType`: ordered keyword match over the
lowercased issue text with default `chore`. -/
def determineBranchType (text : String) : BranchNamingStrategy :=
  let lower := lowerList text
  if containsSub "bug".toList lower || containsSub "fix".toList lower ||
      containsSub "error".toList lower then
    .fix
  else if containsSub "feature".toList lower || containsSub "add".toList lower ||
      containsSub "implement".toList lower then
    .feat
  else if containsSub "refactor".toList lower || containsSub "improve".toList lower ||
      containsSub "optimize".toList lower then
    .refactor
  else
    .chore

/-- Source `generateBranchName` sanitizer: lowercase, strip
`[^a-z0-9\s-]`, collapse `\s+` to `-`, cap at 50 characters. -/
def sanitizeDescription (description : String) : List Char :=
  (collapseWsAux false ((description.toList.map jsToLower).filter keepChar)).take 50

/-- Source `generateBranchName`: `type/sanitized-description`. -/
def generateBranchName (options : BranchOptions) : String :=
  String.mk ((branchTypeStr options.type).toList ++ '/' :: sanitizeDescription options.description)

/-- The regular expression `^(fix|feat|refactor|chore)/[a-z0-9-]{1,50}$`
from the specification, as a decidable matcher. -/
def matchesBranchRegex (b : String) : Bool :=
  [BranchNamingStrategy.fix, .feat, .refactor, .chore].any fun ty =>
    let p := (branchTypeStr ty).toList ++ ['/']
    let l := b.toList
    listStarts p l &&
      (let rest := l.drop p.length
       decide (1 ≤ rest.length) && decide (rest.length ≤ 50) && rest.all isSlugChar)

/-- Source `generatePRTitle`: emoji prefix by type, first 70 characters
of the issue text, ellipsis when longer. -/
def generatePRTitle (issueText : String) (ty : BranchNamingStrategy) : String :=
  let pre := if ty = .fix then "🐛 Fix:" else if ty = .feat then "✨ Feature:" else "♻️ Refactor:"
  String.mk (pre.toList ++ ' ' :: issueText.toList.take 70 ++
    (if 70 < issueText.toList.length then "...".toList else []))

/-! ## Data model (src: types/index.ts) -/

/-- One file change record produced by the code-generation step. -/
structure CodeFix where
  path : String
  description : String
  newContent : Option String := none
  originalContent : Option String := none
deriving DecidableEq, Repr

/-- The code-generation outcome for one job. -/
structure FixResult where
  success : Bool
  analysis : String
  solution : String
  filesChanged : List String
  fixes : List CodeFix
  error : Option String := none
deriving DecidableEq, Repr

/-- Result of `createBranch`. -/
structure GitBranchResult where
  success : Bool
  branchName : Option String := none
  error : Option String := none
deriving DecidableEq, Repr

/-- Result of `commitChanges`. -/
structure GitCommitResult where
  success : Bool
  hash : Option String := none
  branch : Option String := none
  error : Option String := none
deriving DecidableEq, Repr

/-- Result of `createPullRequest`. -/
structure GitHubPRResult where
  success : Bool
  prNumber : Option Nat := none
  prUrl : Option String := none
  error : Option String := none
deriving DecidableEq, Repr

/-- Vercel deployment readiness states. -/
inductive DeployState
  | ready
  | error
  | building
  | queued
  | canceled
deriving DecidableEq, Repr

/-- Result of `waitForDeployment`. -/
structure DeploymentResult where
  success : Bool
  url : Option String := none
  deploymentId : Option String := none
  status : Option DeployState := none
  error : Option String := none
deriving DecidableEq, Repr

/-- One unit of work derived from a Slack message. -/
structure IssueJob where
  id : String
  text : String
  channel : String
  threadTs : String
  userId : String
  timestamp : Nat := 0
  retryCount : Option Nat := none
deriving DecidableEq, Repr

/-- Job status union `'pending' | 'processing' | 'completed' | 'failed'`. -/
inductive JobStatus
  | pending
  | processing
  | completed
  | failed
deriving DecidableEq, Repr

/-- The terminal record of one job. -/
structure JobResult where
  jobId : String
  status : JobStatus
  branchName : Option String := none
  prUrl : Option String := none
  previewUrl : Option String := none
  result : Option FixResult := none
  deployment : Option DeploymentResult := none
  error : Option String := none
deriving DecidableEq, Repr

/-- JavaScript truthiness of an optional string: `undefined` and the
empty string are falsy. -/
def optFalsy : Option String → Bool
  | none => true
  | some s => s == ""

/-- JavaScript truthiness of an optional number: `undefined` and `0`
are falsy. -/
def natFalsy : Option Nat → Bool
  | none => true
  | some n => n == 0

/-! ## GitAutomationService.commitChanges (src: services/git/automation)

The git client underneath `commitChanges` is abstracted as an oracle
giving the outcome of `git.add`, the outcome and reported file list of
the first `git.status` call, the outcome of `git.commit`, and the
outcome of the second `git.status` call performed inside
`getCurrentBranch` (at most one `getCurrentBranch` call happens per
`commitChanges` run: either on the no-staged-changes path or after a
successful commit).  Every one of these calls can raise; a raise is
caught by the enclosing try of `commitChanges` and converted into a
`success := false` result. -/

/-- Oracle for the git operations performed by one `commitChanges`
call. -/
structure CommitEnv where
  addOutcome : Except String Unit
  statusOutcome : Except String Unit
  statusFiles : List String
  currentOutcome : Except String (Option String)
  commitOutcome : Except String String
deriving Repr

/-- Git operations `commitChanges` can issue, in order. -/
inductive GitOp
  | stageFiles (files : List String)
  | stageAll
  | gitStatus
  | gitCommit
deriving DecidableEq, Repr

/-- Source `getCurrentBranch`: a fresh `git.status()` call, which may
itself throw, followed by `status.current || 'unknown'` (the empty
string is falsy in JavaScript).  The not-initialized guard of the
source cannot fire when called from `commitChanges`, which has already
checked it. -/
def getCurrentBranch (env : CommitEnv) : Except String String :=
  match env.currentOutcome with
  | .error e => .error e
  | .ok current =>
    .ok (match current with
      | none => "unknown"
      | some s => if s == "" then "unknown" else s)

/-- Source `commitChanges`: stage the given files (or everything when
the list is empty), return success without committing when the status
reports no changed files, otherwise commit; either return path reads
the current branch through `getCurrentBranch`, whose own `git.status()`
may throw.  Git errors are caught and converted into
`success := false` results; the only raise is the not-initialized
guard, modelled by the `initialized` flag. -/
def commitChanges (initialized : Bool) (env : CommitEnv) (message : String)
    (files : List String) : Except String (GitCommitResult × List GitOp) :=
  if !initialized then
    Except.error "Git not initialized. Call initializeRepo() first."
  else
    Except.ok <|
      let stageOp := if files.length > 0 then GitOp.stageFiles files else GitOp.stageAll
      match env.addOutcome with
      | .error e => ({ success := false, error := some e }, [stageOp])
      | .ok _ =>
        match env.statusOutcome with
        | .error e => ({ success := false, error := some e }, [stageOp, .gitStatus])
        | .ok _ =>
          if env.statusFiles.length == 0 then
            match getCurrentBranch env with
            | .error e =>
              ({ success := false, error := some e }, [stageOp, .gitStatus, .gitStatus])
            | .ok current =>
              ({ success := true, branch := some current }, [stageOp, .gitStatus, .gitStatus])
          else
            match env.commitOutcome with
            | .error e => ({ success := false, error := some e }, [stageOp, .gitStatus, .gitCommit])
            | .ok hash =>
              match getCurrentBranch env with
              | .error e =>
                ({ success := false, error := some e },
                  [stageOp, .gitStatus, .gitCommit, .gitStatus])
              | .ok current =>
                ({ success := true, hash := some hash, branch := some current },
                  [stageOp, .gitStatus, .gitCommit, .gitStatus])

/-! ## The issue processor pipeline (src: processor/issue-processor)

`processIssue` drives one job through acknowledge, repo init, analyze,
branch, commit, push, PR, deploy-wait and report, with one status
message edited in place at every transition and one top-level catch.
Each external call is an oracle field of `Env`; each distinct
`updateMessage` call site has its own field, in pipeline order. -/

/-- External-call oracle for one `processIssue` run. -/
structure Env where
  postStatus : Except String String
  updCloning : Except String Unit
  initRepo : Except String Unit
  updRunning : Except String Unit
  analyze : Except String FixResult
  updAnalysisFailed : Except String Unit
  updNoChanges : Except String Unit
  updCreatingBranch : Except String Unit
  createBranch : GitBranchResult
  updBranchFailed : Except String Unit
  updCommitting : Except String Unit
  commit : GitCommitResult
  updCommitFailed : Except String Unit
  updPushing : Except String Unit
  push : Bool
  updPushFailed : Except String Unit
  updCreatingPR : Except String Unit
  createPR : Except String GitHubPRResult
  updPRFailed : Except String Unit
  addLabels : Except String Unit
  updDeploying : Except String Unit
  waitDeploy : Except String DeploymentResult
  updSuccess : Except String Unit
  updPartial : Except String Unit
  catchUpdate : Except String Unit
  catchPost : Except String Unit
deriving Repr

/-- External operations `processIssue` can issue. -/
inductive Op
  | addReaction (emoji : String)
  | postMessage
  | updateMessage
  | initRepo
  | analyze
  | createBranch (options : BranchOptions)
  | commit (files : List String)
  | push (branch : String)
  | createPR (branch : String) (title : String)
  | addLabels
  | waitDeploy (branch : String)
deriving DecidableEq, Repr

/-- Which return statement of `processIssue` produced the result (a
ghost annotation; it does not influence behaviour). -/
inductive PipelineExit
  | analysisFailed
  | noActionableChange
  | branchFailed
  | commitFailed
  | pushFailed
  | pushRejected
  | prFailed
  | deploySuccess
  | deployPartial
  | caught
deriving DecidableEq, Repr

/-- Outcome of the `try` block of `processIssue`: the result or the
raised error, the status-message timestamp as known at that point, and
the trace of operations issued. -/
structure TryOut where
  res : Except String (JobResult × PipelineExit)
  ts : Option String
  tr : List Op
deriving Repr

/-- Run a fallible call: on raise, abort the try block carrying the
current status-message timestamp; on success, continue. -/
def att {α : Type} (ts : Option String) (x : Except String α) (k : α → TryOut) : TryOut :=
  match x with
  | .error e => ⟨.error e, ts, []⟩
  | .ok a => k a

/-- Record one issued operation in front of the remaining trace. -/
def withOp (o : Op) (t : TryOut) : TryOut :=
  ⟨t.res, t.ts, o :: t.tr⟩

/-- The `try` block of `processIssue`, step for step. -/
def processTry (job : IssueJob) (env : Env) : TryOut :=
  withOp (.addReaction "eyes") <|
  withOp .postMessage <| att none env.postStatus fun ts =>
  withOp .updateMessage <| att (some ts) env.updCloning fun _ =>
  withOp .initRepo <| att (some ts) env.initRepo fun _ =>
  withOp .updateMessage <| att (some ts) env.updRunning fun _ =>
  withOp .analyze <| att (some ts) env.analyze fun fixResult =>
  if !fixResult.success then
    withOp .updateMessage <| att (some ts) env.updAnalysisFailed fun _ =>
      ⟨.ok ({ jobId := job.id, status := .failed, error := fixResult.error },
        .analysisFailed), some ts, []⟩
  else if fixResult.filesChanged.length == 0 then
    withOp .updateMessage <| att (some ts) env.updNoChanges fun _ =>
      ⟨.ok ({ jobId := job.id, status := .completed, result := some fixResult },
        .noActionableChange), some ts, []⟩
  else
    withOp .updateMessage <| att (some ts) env.updCreatingBranch fun _ =>
    let branchType := determineBranchType job.text
    let branchOptions : BranchOptions :=
      { type := branchType, description := jsSubstringTo job.text 50 }
    withOp (.createBranch branchOptions) <|
    let branchResult := env.createBranch
    if !branchResult.success || optFalsy branchResult.branchName then
      withOp .updateMessage <| att (some ts) env.updBranchFailed fun _ =>
        ⟨.ok ({ jobId := job.id, status := .failed, result := some fixResult,
                error := branchResult.error }, .branchFailed), some ts, []⟩
    else
      let bn := branchResult.branchName.getD ""
      withOp .updateMessage <| att (some ts) env.updCommitting fun _ =>
      withOp (.commit fixResult.filesChanged) <|
      let commitResult := env.commit
      if !commitResult.success then
        withOp .updateMessage <| att (some ts) env.updCommitFailed fun _ =>
          ⟨.ok ({ jobId := job.id, status := .failed, result := some fixResult,
                  error := commitResult.error }, .commitFailed), some ts, []⟩
      else
        withOp .updateMessage <| att (some ts) env.updPushing fun _ =>
        withOp (.push bn) <|
        if !env.push then
          withOp .updateMessage <| att (some ts) env.updPushFailed fun _ =>
            ⟨.ok ({ jobId := job.id, status := .failed, result := some fixResult,
                    error := some "Failed to push to remote" }, .pushFailed), some ts, []⟩
        else
          withOp .updateMessage <| att (some ts) env.updCreatingPR fun _ =>
          withOp (.createPR bn (generatePRTitle job.text branchType)) <|
          att (some ts) env.createPR fun prResult =>
          if !prResult.success || optFalsy prResult.prUrl then
            withOp .updateMessage <| att (some ts) env.updPRFailed fun _ =>
              ⟨.ok ({ jobId := job.id, status := .completed, result := some fixResult,
                      branchName := some bn, error := prResult.error }, .prFailed), some ts, []⟩
          else
            let rest : TryOut :=
              withOp .updateMessage <| att (some ts) env.updDeploying fun _ =>
              withOp (.waitDeploy bn) <| att (some ts) env.waitDeploy fun deployment =>
              if deployment.success && !optFalsy deployment.url then
                withOp .updateMessage <| att (some ts) env.updSuccess fun _ =>
                withOp (.addReaction "white_check_mark")
                  ⟨.ok ({ jobId := job.id, status := .completed, branchName := some bn,
                          prUrl := prResult.prUrl, previewUrl := deployment.url,
                          result := some fixResult, deployment := some deployment },
                    .deploySuccess), some ts, []⟩
              else
                withOp .updateMessage <| att (some ts) env.updPartial fun _ =>
                withOp (.addReaction "warning")
                  ⟨.ok ({ jobId := job.id, status := .completed, branchName := some bn,
                          prUrl := prResult.prUrl, result := some fixResult,
                          deployment := some deployment }, .deployPartial), some ts, []⟩
            if !natFalsy prResult.prNumber then
              withOp .addLabels <| att (some ts) env.addLabels fun _ => rest
            else
              rest

/-- JavaScript truthiness of the `statusMessageTs` local. -/
def tsTruthy : Option String → Bool
  | none => false
  | some s => !(s == "")

/-- The `failed` result built in the top-level catch block. -/
def failedRes (job : IssueJob) (e : String) : JobResult :=
  { jobId := job.id, status := .failed, error := some e }

/-- The catch block of `processIssue`: edit the status message when one
exists, fall back to posting a brand-new message when the edit raises,
and propagate only when that post raises as well. -/
def runCatch (job : IssueJob) (env : Env) (e : String) (ts : Option String) :
    Except String (JobResult × PipelineExit) × List Op :=
  if tsTruthy ts then
    match env.catchUpdate with
    | .ok _ => (.ok (failedRes job e, .caught), [.updateMessage])
    | .error _ =>
      match env.catchPost with
      | .ok _ => (.ok (failedRes job e, .caught), [.updateMessage, .postMessage])
      | .error e2 => (.error e2, [.updateMessage, .postMessage])
  else
    (.ok (failedRes job e, .caught), [])

/-- Source `processIssue`: the try block followed by the top-level
catch.  The first component is the returned job result (or the
propagated exception), the second the full operation trace. -/
def processIssue (job : IssueJob) (env : Env) :
    Except String (JobResult × PipelineExit) × List Op :=
  let t := processTry job env
  match t.res with
  | .ok r => (.ok r, t.tr)
  | .error e =>
    let c := runCatch job env e t.ts
    (c.1, t.tr ++ c.2)

/-! ## Keyword predicates used to state the category-priority claim -/

/-- The lowercased text contains `bug`, `fix` or `error`. -/
def hasFixKw (text : String) : Bool :=
  containsSub "bug".toList (lowerList text) || containsSub "fix".toList (lowerList text) ||
    containsSub "error".toList (lowerList text)

/-- The lowercased text contains `feature`, `add` or `implement`. -/
def hasFeatKw (text : String) : Bool :=
  containsSub "feature".toList (lowerList text) || containsSub "add".toList (lowerList text) ||
    containsSub "implement".toList (lowerList text)

/-- The lowercased text contains `refactor`, `improve` or `optimize`. -/
def hasRefactorKw (text : String) : Bool :=
  containsSub "refactor".toList (lowerList text) ||
    containsSub "improve".toList (lowerList text) ||
    containsSub "optimize".toList (lowerList text)

/-! ## Concrete jobs, results and oracle environments used by the
witness and counterexample theorems -/

/-- A successful Slack call. -/
def okU : Except String Unit := Except.ok ()

/-- A concrete job. -/
def wJob : IssueJob :=
  { id := "j1", text := "Fix the bug", channel := "C1", threadTs := "t1", userId := "U1" }

/-- A concrete successful fix with two changed files. -/
def wFix : FixResult :=
  { success := true, analysis := "found it", solution := "patched it",
    filesChanged := ["x.ts", "y.ts"], fixes := [] }

/-- Oracle environment of a fully successful run. -/
def wEnvBase : Env :=
  { postStatus := .ok "111", updCloning := okU, initRepo := okU, updRunning := okU,
    analyze := .ok wFix, updAnalysisFailed := okU, updNoChanges := okU,
    updCreatingBranch := okU,
    createBranch := { success := true, branchName := some "fix/fix-the-bug" },
    updBranchFailed := okU, updCommitting := okU,
    commit := { success := true, hash := some "abc1234" },
    updCommitFailed := okU, updPushing := okU, push := true, updPushFailed := okU,
    updCreatingPR := okU,
    createPR := .ok { success := true, prNumber := some 7, prUrl := some "https://pr" },
    updPRFailed := okU, addLabels := okU, updDeploying := okU,
    waitDeploy := .ok { success := true, url := some "https://preview" },
    updSuccess := okU, updPartial := okU, catchUpdate := okU, catchPost := okU }

/-- A run that raises at repository initialization and whose catch-block
status edit and fallback post both raise as well. -/
def c1Env : Env :=
  { wEnvBase with initRepo := .error "boom", catchUpdate := .error "edit failed",
                  catchPost := .error "post failed too" }

/-- A run that raises at repository initialization with a healthy
catch-block status edit. -/
def c1wEnv : Env :=
  { wEnvBase with initRepo := .error "boom" }

/-- A generation failure that carries no error text. -/
def c2Env : Env :=
  { wEnvBase with analyze := .ok { wFix with success := false, error := none } }

/-- A run whose push fails (also the scenario of claim C6). -/
def pushFailEnv : Env :=
  { wEnvBase with push := false }

/-- The job result of the push-failure run. -/
def pushFailRes : JobResult :=
  { jobId := "j1", status := .failed, result := some wFix,
    error := some "Failed to push to remote" }

/-- A successful generation with an empty changed-file list. -/
def c4Fix : FixResult :=
  { wFix with filesChanged := [] }

/-- A run whose generation yields no file changes. -/
def c4Env : Env :=
  { wEnvBase with analyze := .ok c4Fix }

/-- A PR-creation failure carrying no error text. -/
def c5Env : Env :=
  { wEnvBase with createPR := .ok { success := false, error := none } }

/-- A PR-creation failure carrying error text. -/
def c5wEnv : Env :=
  { wEnvBase with createPR := .ok { success := false, error := some "422 validation" } }

/-- A commit-stage failure. -/
def c7bEnv : Env :=
  { wEnvBase with commit := { success := false, error := some "cfail" } }

/-- A commit-environment whose staging succeeds and whose status
reports no changed files. -/
def cleanCommitEnv : CommitEnv :=
  { addOutcome := okU, statusOutcome := okU, statusFiles := [],
    currentOutcome := .ok (some "fix/fix-the-bug"), commitOutcome := .ok "h1" }

/-- The clean commit-environment with a current-branch status read that
throws. -/
def statusThrowEnv : CommitEnv :=
  { cleanCommitEnv with currentOutcome := .error "status read failed" }

/-- The job result of the generation-failure-without-error-text run. -/
def c2Res : JobResult :=
  { jobId := "j1", status := .failed, error := none }

/-! ## Helper lemmas -/

@[simp] theorem withOp_res (o : Op) (t : TryOut) : (withOp o t).res = t.res := rfl

@[simp] theorem withOp_ts (o : Op) (t : TryOut) : (withOp o t).ts = t.ts := rfl

@[simp] theorem withOp_tr (o : Op) (t : TryOut) : (withOp o t).tr = o :: t.tr := rfl

@[simp] theorem att_error {α : Type} (ts : Option String) (e : String) (k : α → TryOut) :
    att ts (.error e) k = ⟨.error e, ts, []⟩ := rfl

@[simp] theorem att_ok {α : Type} (ts : Option String) (a : α) (k : α → TryOut) :
    att ts (.ok a) k = k a := rfl

@[simp] theorem toList_mk (l : List Char) : (String.mk l).toList = l := rfl

theorem listStarts_append (p rest : List Char) : listStarts p (p ++ rest) = true := by
  induction p with
  | nil => rfl
  | cons a as ih => simp [listStarts, ih]

theorem isSlugChar_of_keep_not_ws {c : Char} (hk : keepChar c = true) (hw : jsWsB c = false) :
    isSlugChar c = true := by
  have := Bool.or_eq_true (isSlugChar c) (jsWsB c)
  unfold keepChar at hk
  rcases Bool.or_eq_true_iff.mp hk with h | h
  · exact h
  · rw [h] at hw; exact absurd hw (by simp)

theorem jsWsB_eq_false_of_isSlugChar {c : Char} (h : isSlugChar c = true) : jsWsB c = false := by
  by_contra hne
  have hw : jsWsB c = true := by revert hne; cases jsWsB c <;> simp
  simp only [isSlugChar, Bool.or_eq_true, Bool.and_eq_true, decide_eq_true_eq] at h
  simp only [jsWsB, Bool.or_eq_true, Bool.and_eq_true, decide_eq_true_eq] at hw
  omega

theorem isSlugChar_collapseWsAux :
    ∀ (l : List Char) (b : Bool), (∀ c ∈ l, keepChar c = true) →
      ∀ c ∈ collapseWsAux b l, isSlugChar c = true := by
  intro l
  induction l with
  | nil => intro b _ c hc; simp [collapseWsAux] at hc
  | cons a t ih =>
    intro b h c hc
    have ha : keepChar a = true := h a (List.mem_cons_self a t)
    have ht : ∀ x ∈ t, keepChar x = true := fun x hx => h x (List.mem_cons_of_mem _ hx)
    rw [collapseWsAux] at hc
    split at hc
    · rename_i hw
      split at hc
      · exact ih true ht c hc
      · rcases List.mem_cons.mp hc with rfl | hc
        · decide
        · exact ih true ht c hc
    · rename_i hw
      rcases List.mem_cons.mp hc with rfl | hc
      · exact isSlugChar_of_keep_not_ws ha (by revert hw; cases jsWsB c <;> simp)
      · exact ih false ht c hc

theorem isSlugChar_sanitize (d : String) : ∀ c ∈ sanitizeDescription d, isSlugChar c = true := by
  intro c hc
  unfold sanitizeDescription at hc
  have hc' := List.take_subset 50 _ hc
  exact isSlugChar_collapseWsAux _ false (fun x hx => (List.mem_filter.mp hx).2) c hc'

theorem sanitize_length_le (d : String) : (sanitizeDescription d).length ≤ 50 := by
  unfold sanitizeDescription
  exact List.length_take_le 50 _

theorem matchesBranchRegex_mk (ty : BranchNamingStrategy) (slug : List Char)
    (h1 : slug ≠ []) (h2 : slug.length ≤ 50) (h3 : ∀ c ∈ slug, isSlugChar c = true) :
    matchesBranchRegex (String.mk ((branchTypeStr ty).toList ++ '/' :: slug)) = true := by
  unfold matchesBranchRegex
  rw [List.any_eq_true]
  refine ⟨ty, by cases ty <;> simp, ?_⟩
  simp only [toList_mk, Bool.and_eq_true]
  have hsplit : (branchTypeStr ty).toList ++ '/' :: slug =
      ((branchTypeStr ty).toList ++ ['/']) ++ slug := by simp
  rw [hsplit]
  refine ⟨listStarts_append _ _, ?_⟩
  simp only [List.drop_left]
  refine ⟨⟨by simpa using List.length_pos.mpr h1, by simpa using h2⟩, ?_⟩
  rw [List.all_eq_true]
  intro c hc
  exact h3 c hc

/-! ## Claim C3 -/

/-- Claim C3 counterexample: for the issue text consisting only of
exclamation marks the derived branch name is the bare string
`chore/` with an empty slug, which does not match
`^(fix|feat|refactor|chore)/[a-z0-9-]{1,50}$`. -/
theorem branchName_regex_counterexample :
    determineBranchType "!!!" = .chore ∧
      generateBranchName
        { type := determineBranchType "!!!", description := jsSubstringTo "!!!" 50 } = "chore/" ∧
      matchesBranchRegex "chore/" = false := by
  decide

/-- Claim C3 (amended): for every issue text whose first 50 characters
sanitize to a non-empty slug, the derived branch name (category from
`determineBranchType`, slug from the sanitizer of `generateBranchName`)
matches `^(fix|feat|refactor|chore)/[a-z0-9-]{1,50}$` and contains no
whitespace.  Texts sanitizing to the empty slug yield `type/`, which
does not match. -/
theorem branchName_matches_regex (text : String)
    (h : sanitizeDescription (jsSubstringTo text 50) ≠ []) :
    matchesBranchRegex (generateBranchName
        { type := determineBranchType text, description := jsSubstringTo text 50 }) = true ∧
      (generateBranchName
        { type := determineBranchType text,
          description := jsSubstringTo text 50 }).toList.all (fun c => !jsWsB c) = true := by
  constructor
  · unfold generateBranchName
    exact matchesBranchRegex_mk _ _ h (sanitize_length_le _) (isSlugChar_sanitize _)
  · have hty : ∀ ty : BranchNamingStrategy,
        (branchTypeStr ty).toList.all (fun c => !jsWsB c) = true := by
      intro ty; cases ty <;> decide
    unfold generateBranchName
    rw [toList_mk, List.all_eq_true]
    intro c hc
    dsimp only at hc
    rcases List.mem_append.mp hc with hm | hm
    · exact List.all_eq_true.mp (hty _) c hm
    · rcases List.mem_cons.mp hm with rfl | hm
      · decide
      · simp [jsWsB_eq_false_of_isSlugChar (isSlugChar_sanitize _ c hm)]

/-- Claim C3 witness: the text `Fix the bug` has non-empty slug and its
branch name `fix/fix-the-bug` matches the pattern. -/
theorem branchName_matches_regex_witness :
    sanitizeDescription (jsSubstringTo "Fix the bug" 50) ≠ [] ∧
      (matchesBranchRegex (generateBranchName
          { type := determineBranchType "Fix the bug",
            description := jsSubstringTo "Fix the bug" 50 }) = true ∧
        (generateBranchName
          { type := determineBranchType "Fix the bug",
            description := jsSubstringTo "Fix the bug" 50 }).toList.all
            (fun c => !jsWsB c) = true) :=
  ⟨by decide, branchName_matches_regex "Fix the bug" (by decide)⟩

/-! ## Claim C9 -/

/-- Claim C9: `determineBranchType` is total over all strings and
resolves in the fixed priority order bug/fix/error before
feature/add/implement before refactor/improve/optimize before the
default `chore`; the first matching category wins. -/
theorem determineBranchType_priority (text : String) :
    (hasFixKw text = true → determineBranchType text = .fix) ∧
      (hasFixKw text = false → hasFeatKw text = true → determineBranchType text = .feat) ∧
      (hasFixKw text = false → hasFeatKw text = false → hasRefactorKw text = true →
        determineBranchType text = .refactor) ∧
      (hasFixKw text = false → hasFeatKw text = false → hasRefactorKw text = false →
        determineBranchType text = .chore) := by
  refine ⟨?_, ?_, ?_, ?_⟩
  · intro h1
    unfold hasFixKw at h1
    unfold determineBranchType
    dsimp only
    rw [h1]
    simp
  · intro h1 h2
    unfold hasFixKw at h1
    unfold hasFeatKw at h2
    unfold determineBranchType
    dsimp only
    rw [h1, h2]
    simp
  · intro h1 h2 h3
    unfold hasFixKw at h1
    unfold hasFeatKw at h2
    unfold hasRefactorKw at h3
    unfold determineBranchType
    dsimp only
    rw [h1, h2, h3]
    simp
  · intro h1 h2 h3
    unfold hasFixKw at h1
    unfold hasFeatKw at h2
    unfold hasRefactorKw at h3
    unfold determineBranchType
    dsimp only
    rw [h1, h2, h3]
    simp

/-- Claim C9 witness: the priority order on four concrete texts,
including one where a lower-priority keyword is also present. -/
theorem determineBranchType_priority_witness :
    (hasFixKw "fix: add dark mode" = true ∧
      determineBranchType "fix: add dark mode" = .fix) ∧
      (hasFixKw "add dark mode" = false ∧ hasFeatKw "add dark mode" = true ∧
        determineBranchType "add dark mode" = .feat) ∧
      (hasFixKw "optimize the images" = false ∧ hasFeatKw "optimize the images" = false ∧
        hasRefactorKw "optimize the images" = true ∧
        determineBranchType "optimize the images" = .refactor) ∧
      (hasFixKw "zzz" = false ∧ hasFeatKw "zzz" = false ∧ hasRefactorKw "zzz" = false ∧
        determineBranchType "zzz" = .chore) :=
  ⟨⟨by decide, (determineBranchType_priority "fix: add dark mode").1 (by decide)⟩,
    ⟨by decide, by decide,
      (determineBranchType_priority "add dark mode").2.1 (by decide) (by decide)⟩,
    ⟨by decide, by decide, by decide,
      (determineBranchType_priority "optimize the images").2.2.1 (by decide) (by decide)
        (by decide)⟩,
    ⟨by decide, by decide, by decide,
      (determineBranchType_priority "zzz").2.2.2 (by decide) (by decide) (by decide)⟩⟩

/-! ## Claim C10 -/

/-- Claim C10: only `fix` and `feat` get their own PR-title tags; every
other type, in particular `chore`, gets the recycle tag, followed by
the first 70 characters of the issue text and an ellipsis when the
text is longer. -/
theorem generatePRTitle_mapping :
    (∀ text, determineBranchType text = .chore →
      listStarts "♻️ Refactor:".toList
        (generatePRTitle text (determineBranchType text)).toList = true) ∧
      (∀ text ty, ty ≠ BranchNamingStrategy.fix → ty ≠ BranchNamingStrategy.feat →
        generatePRTitle text ty =
          String.mk ("♻️ Refactor:".toList ++ ' ' :: text.toList.take 70 ++
            (if 70 < text.toList.length then "...".toList else []))) ∧
      (∀ text, generatePRTitle text .fix =
        String.mk ("🐛 Fix:".toList ++ ' ' :: text.toList.take 70 ++
          (if 70 < text.toList.length then "...".toList else []))) ∧
      (∀ text, generatePRTitle text .feat =
        String.mk ("✨ Feature:".toList ++ ' ' :: text.toList.take 70 ++
          (if 70 < text.toList.length then "...".toList else []))) := by
  have key : ∀ text (ty : BranchNamingStrategy), ty ≠ .fix → ty ≠ .feat →
      generatePRTitle text ty =
        String.mk ("♻️ Refactor:".toList ++ ' ' :: text.toList.take 70 ++
          (if 70 < text.toList.length then "...".toList else [])) := by
    intro text ty h1 h2
    unfold generatePRTitle
    rw [if_neg h1, if_neg h2]
  refine ⟨?_, key, fun text => rfl, fun text => rfl⟩
  intro text h
  rw [h, key text .chore (by decide) (by decide), toList_mk]
  exact listStarts_append _ _

/-- Claim C10 witness: a concrete chore-classified text gets the
recycle-tagged title. -/
theorem generatePRTitle_mapping_witness :
    determineBranchType "zzz" = .chore ∧
      listStarts "♻️ Refactor:".toList
        (generatePRTitle "zzz" (determineBranchType "zzz")).toList = true ∧
      generatePRTitle "zzz" .chore =
        String.mk ("♻️ Refactor:".toList ++ ' ' :: "zzz".toList.take 70 ++
          (if 70 < "zzz".toList.length then "...".toList else [])) :=
  ⟨by decide, generatePRTitle_mapping.1 "zzz" (by decide),
    generatePRTitle_mapping.2.1 "zzz" .chore (by decide) (by decide)⟩

/-! ## Pipeline helper lemmas -/

@[simp] theorem optFalsy_none : optFalsy none = true := rfl

@[simp] theorem optFalsy_some (s : String) : optFalsy (some s) = (s == "") := rfl

@[simp] theorem natFalsy_none : natFalsy none = true := rfl

@[simp] theorem natFalsy_some (n : Nat) : natFalsy (some n) = (n == 0) := rfl

theorem runCatch_ok (job : IssueJob) (env : Env) (e : String) (ts : Option String)
    (r : JobResult) (ex : PipelineExit) (h : (runCatch job env e ts).1 = Except.ok (r, ex)) :
    r = failedRes job e ∧ ex = PipelineExit.caught := by
  unfold runCatch at h
  split at h
  · split at h
    · simp_all
    · split at h <;> simp_all
  · simp at h
    exact ⟨h.1.symm, h.2.symm⟩

theorem runCatch_no_commit (job : IssueJob) (env : Env) (e : String) (ts : Option String)
    (fs : List String) : Op.commit fs ∉ (runCatch job env e ts).2 := by
  unfold runCatch
  split
  · split
    · simp
    · split <;> simp
  · simp

theorem processTry_exits (job : IssueJob) (env : Env) (r : JobResult) (ex : PipelineExit)
    (h : (processTry job env).res = Except.ok (r, ex)) :
    (ex = PipelineExit.analysisFailed → r.status = JobStatus.failed ∧
      ∃ fr, env.analyze = Except.ok fr ∧ fr.success = false ∧ r.error = fr.error) ∧
      (ex = PipelineExit.branchFailed → r.status = JobStatus.failed ∧
        r.error = env.createBranch.error) ∧
      (ex = PipelineExit.commitFailed → r.status = JobStatus.failed ∧
        r.error = env.commit.error) ∧
      (ex = PipelineExit.pushFailed → r.status = JobStatus.failed ∧
        r.error = some "Failed to push to remote") ∧
      ex ≠ PipelineExit.caught ∧
      (r.status = JobStatus.failed → ex = PipelineExit.analysisFailed ∨
        ex = PipelineExit.branchFailed ∨ ex = PipelineExit.commitFailed ∨
        ex = PipelineExit.pushFailed) := by
  unfold processTry at h
  rcases hps : env.postStatus with e | ts <;> rw [hps] at h <;> simp at h
  rcases hc1 : env.updCloning with e | u <;> rw [hc1] at h <;> simp at h
  rcases hir : env.initRepo with e | u <;> rw [hir] at h <;> simp at h
  rcases hc2 : env.updRunning with e | u <;> rw [hc2] at h <;> simp at h
  rcases han : env.analyze with e | fr <;> rw [han] at h <;> simp at h
  cases hsu : fr.success <;> rw [hsu] at h <;> simp at h
  · rcases hu : env.updAnalysisFailed with e | u <;> rw [hu] at h <;> simp at h
    rcases h with ⟨hr, hex⟩
    subst hr
    subst hex
    refine ⟨fun _ => ⟨rfl, fr, rfl, hsu, rfl⟩, fun hx => by simp at hx, fun hx => by simp at hx,
      fun hx => by simp at hx, by simp, fun _ => Or.inl rfl⟩
  by_cases hfc : fr.filesChanged = [] <;> simp [hfc] at h
  case pos =>
    rcases hu : env.updNoChanges with e | u <;> rw [hu] at h <;> simp at h
    rcases h with ⟨hr, hex⟩
    subst hr
    subst hex
    refine ⟨fun hx => by simp at hx, fun hx => by simp at hx, fun hx => by simp at hx,
      fun hx => by simp at hx, by simp, fun hst => by simp at hst⟩
  rcases hu3 : env.updCreatingBranch with e | u <;> rw [hu3] at h <;> simp at h
  by_cases hbf : (env.createBranch.success = false ∨ optFalsy env.createBranch.branchName = true) <;>
    simp only [hbf, if_true, if_false, ite_true, ite_false] at h
  case pos =>
    simp at h
    rcases hu : env.updBranchFailed with e | u <;> rw [hu] at h <;> simp at h
    rcases h with ⟨hr, hex⟩
    subst hr
    subst hex
    refine ⟨fun hx => by simp at hx, fun _ => ⟨rfl, rfl⟩, fun hx => by simp at hx,
      fun hx => by simp at hx, by simp, fun _ => Or.inr (Or.inl rfl)⟩
  simp at h
  rcases hu4 : env.updCommitting with e | u <;> rw [hu4] at h <;> simp at h
  cases hcs : env.commit.success <;> rw [hcs] at h <;> simp at h
  · rcases hu : env.updCommitFailed with e | u <;> rw [hu] at h <;> simp at h
    rcases h with ⟨hr, hex⟩
    subst hr
    subst hex
    refine ⟨fun hx => by simp at hx, fun hx => by simp at hx, fun _ => ⟨rfl, rfl⟩,
      fun hx => by simp at hx, by simp, fun _ => Or.inr (Or.inr (Or.inl rfl))⟩
  · rcases hu5 : env.updPushing with e | u <;> rw [hu5] at h <;> simp at h
    cases hpu : env.push <;> rw [hpu] at h <;> simp at h
    · rcases hu : env.updPushFailed with e | u <;> rw [hu] at h <;> simp at h
      rcases h with ⟨hr, hex⟩
      subst hr
      subst hex
      refine ⟨fun hx => by simp at hx, fun hx => by simp at hx, fun hx => by simp at hx,
        fun _ => ⟨rfl, rfl⟩, by simp, fun _ => Or.inr (Or.inr (Or.inr rfl))⟩
    · rcases hu6 : env.updCreatingPR with e | u <;> rw [hu6] at h <;> simp at h
      rcases hpr : env.createPR with e | pr <;> rw [hpr] at h <;> simp at h
      by_cases hprf : (pr.success = false ∨ optFalsy pr.prUrl = true) <;>
        simp only [hprf, if_true, if_false, ite_true, ite_false] at h
      case pos =>
        simp at h
        rcases hu : env.updPRFailed with e | u <;> rw [hu] at h <;> simp at h
        rcases h with ⟨hr, hex⟩
        subst hr
        subst hex
        refine ⟨fun hx => by simp at hx, fun hx => by simp at hx, fun hx => by simp at hx,
          fun hx => by simp at hx, by simp, fun hst => by simp at hst⟩
      cases hpn : natFalsy pr.prNumber <;> rw [hpn] at h <;> simp at h
      · rcases hal : env.addLabels with e | u <;> rw [hal] at h <;> simp at h
        rcases hu7 : env.updDeploying with e | u <;> rw [hu7] at h <;> simp at h
        rcases hwd : env.waitDeploy with e | dep <;> rw [hwd] at h <;> simp at h
        cases hds1 : dep.success <;> rw [hds1] at h <;> simp at h
        · rcases hu9 : env.updPartial with e | u <;> rw [hu9] at h <;> simp at h
          rcases h with ⟨hr, hex⟩
          subst hr
          subst hex
          refine ⟨fun hx => by simp at hx, fun hx => by simp at hx, fun hx => by simp at hx,
            fun hx => by simp at hx, by simp, fun hst => by simp at hst⟩
        · cases hds2 : optFalsy dep.url <;> rw [hds2] at h <;> simp at h
          · rcases hu8 : env.updSuccess with e | u <;> rw [hu8] at h <;> simp at h
            rcases h with ⟨hr, hex⟩
            subst hr
            subst hex
            refine ⟨fun hx => by simp at hx, fun hx => by simp at hx, fun hx => by simp at hx,
              fun hx => by simp at hx, by simp, fun hst => by simp at hst⟩
          · rcases hu9 : env.updPartial with e | u <;> rw [hu9] at h <;> simp at h
            rcases h with ⟨hr, hex⟩
            subst hr
            subst hex
            refine ⟨fun hx => by simp at hx, fun hx => by simp at hx, fun hx => by simp at hx,
              fun hx => by simp at hx, by simp, fun hst => by simp at hst⟩
      · rcases hu7 : env.updDeploying with e | u <;> rw [hu7] at h <;> simp at h
        rcases hwd : env.waitDeploy with e | dep <;> rw [hwd] at h <;> simp at h
        cases hds1 : dep.success <;> rw [hds1] at h <;> simp at h
        · rcases hu9 : env.updPartial with e | u <;> rw [hu9] at h <;> simp at h
          rcases h with ⟨hr, hex⟩
          subst hr
          subst hex
          refine ⟨fun hx => by simp at hx, fun hx => by simp at hx, fun hx => by simp at hx,
            fun hx => by simp at hx, by simp, fun hst => by simp at hst⟩
        · cases hds2 : optFalsy dep.url <;> rw [hds2] at h <;> simp at h
          · rcases hu8 : env.updSuccess with e | u <;> rw [hu8] at h <;> simp at h
            rcases h with ⟨hr, hex⟩
            subst hr
            subst hex
            refine ⟨fun hx => by simp at hx, fun hx => by simp at hx, fun hx => by simp at hx,
              fun hx => by simp at hx, by simp, fun hst => by simp at hst⟩
          · rcases hu9 : env.updPartial with e | u <;> rw [hu9] at h <;> simp at h
            rcases h with ⟨hr, hex⟩
            subst hr
            subst hex
            refine ⟨fun hx => by simp at hx, fun hx => by simp at hx, fun hx => by simp at hx,
              fun hx => by simp at hx, by simp, fun hst => by simp at hst⟩

theorem processTry_commitFailed (job : IssueJob) (env : Env) (r : JobResult)
    (h : (processTry job env).res = Except.ok (r, PipelineExit.commitFailed)) :
    env.commit.success = false := by
  unfold processTry at h
  rcases hps : env.postStatus with e | ts <;> rw [hps] at h <;> simp at h
  rcases hc1 : env.updCloning with e | u <;> rw [hc1] at h <;> simp at h
  rcases hir : env.initRepo with e | u <;> rw [hir] at h <;> simp at h
  rcases hc2 : env.updRunning with e | u <;> rw [hc2] at h <;> simp at h
  rcases han : env.analyze with e | fr <;> rw [han] at h <;> simp at h
  cases hsu : fr.success <;> rw [hsu] at h <;> simp at h
  · rcases hu : env.updAnalysisFailed with e | u <;> rw [hu] at h <;> simp at h
  · by_cases hfc : fr.filesChanged = [] <;> simp [hfc] at h
    · rcases hu : env.updNoChanges with e | u <;> rw [hu] at h <;> simp at h
    · rcases hu3 : env.updCreatingBranch with e | u <;> rw [hu3] at h <;> simp at h
      by_cases hbf : (env.createBranch.success = false ∨ optFalsy env.createBranch.branchName = true) <;>
        simp only [hbf, if_true, if_false, ite_true, ite_false] at h
      case pos =>
        simp at h
        rcases hu : env.updBranchFailed with e | u <;> rw [hu] at h <;> simp at h
      simp at h
      rcases hu4 : env.updCommitting with e | u <;> rw [hu4] at h <;> simp at h
      cases hcs : env.commit.success <;> rw [hcs] at h <;> simp at h
      rcases hu5 : env.updPushing with e | u <;> rw [hu5] at h <;> simp at h
      cases hpu : env.push <;> rw [hpu] at h <;> simp at h
      · rcases hu : env.updPushFailed with e | u <;> rw [hu] at h <;> simp at h
      · rcases hu6 : env.updCreatingPR with e | u <;> rw [hu6] at h <;> simp at h
        rcases hpr : env.createPR with e | pr <;> rw [hpr] at h <;> simp at h
        by_cases hprf : (pr.success = false ∨ optFalsy pr.prUrl = true) <;>
          simp only [hprf, if_true, if_false, ite_true, ite_false] at h
        case pos =>
          simp at h
          rcases hu : env.updPRFailed with e | u <;> rw [hu] at h <;> simp at h
        cases hpn : natFalsy pr.prNumber <;> rw [hpn] at h <;> simp at h
        · rcases hal : env.addLabels with e | u <;> rw [hal] at h <;> simp at h
          rcases hu7 : env.updDeploying with e | u <;> rw [hu7] at h <;> simp at h
          rcases hwd : env.waitDeploy with e | dep <;> rw [hwd] at h <;> simp at h
          cases hds1 : dep.success <;> rw [hds1] at h <;> simp at h
          · rcases hu9 : env.updPartial with e | u <;> rw [hu9] at h <;> simp at h
          · cases hds2 : optFalsy dep.url <;> rw [hds2] at h <;> simp at h
            · rcases hu8 : env.updSuccess with e | u <;> rw [hu8] at h <;> simp at h
            · rcases hu9 : env.updPartial with e | u <;> rw [hu9] at h <;> simp at h
        · rcases hu7 : env.updDeploying with e | u <;> rw [hu7] at h <;> simp at h
          rcases hwd : env.waitDeploy with e | dep <;> rw [hwd] at h <;> simp at h
          cases hds1 : dep.success <;> rw [hds1] at h <;> simp at h
          · rcases hu9 : env.updPartial with e | u <;> rw [hu9] at h <;> simp at h
          · cases hds2 : optFalsy dep.url <;> rw [hds2] at h <;> simp at h
            · rcases hu8 : env.updSuccess with e | u <;> rw [hu8] at h <;> simp at h
            · rcases hu9 : env.updPartial with e | u <;> rw [hu9] at h <;> simp at h

theorem processTry_commit_mem (job : IssueJob) (env : Env) (fs : List String)
    (h : Op.commit fs ∈ (processTry job env).tr) :
    ∃ fr, env.analyze = Except.ok fr ∧ fs = fr.filesChanged ∧ fr.filesChanged ≠ [] := by
  unfold processTry at h
  rcases hps : env.postStatus with e | ts <;> rw [hps] at h <;> simp at h
  rcases hc1 : env.updCloning with e | u <;> rw [hc1] at h <;> simp at h
  rcases hir : env.initRepo with e | u <;> rw [hir] at h <;> simp at h
  rcases hc2 : env.updRunning with e | u <;> rw [hc2] at h <;> simp at h
  rcases han : env.analyze with e | fr <;> rw [han] at h <;> simp at h
  cases hsu : fr.success <;> rw [hsu] at h <;> simp at h
  · rcases hu : env.updAnalysisFailed with e | u <;> rw [hu] at h <;> simp at h
  · by_cases hfc : fr.filesChanged = [] <;> simp [hfc] at h
    · rcases hu : env.updNoChanges with e | u <;> rw [hu] at h <;> simp at h
    · rcases hu3 : env.updCreatingBranch with e | u <;> rw [hu3] at h <;> simp at h
      by_cases hbf : (env.createBranch.success = false ∨ optFalsy env.createBranch.branchName = true) <;>
        simp only [hbf, if_true, if_false, ite_true, ite_false] at h
      case pos =>
        simp at h
        rcases hu : env.updBranchFailed with e | u <;> rw [hu] at h <;> simp at h
      simp at h
      rcases hu4 : env.updCommitting with e | u <;> rw [hu4] at h <;> simp at h
      rcases h with h | h
      · exact ⟨fr, rfl, h, hfc⟩
      · cases hcs : env.commit.success <;> rw [hcs] at h <;> simp at h
        · rcases hu : env.updCommitFailed with e | u <;> rw [hu] at h <;> simp at h
        · rcases hu5 : env.updPushing with e | u <;> rw [hu5] at h <;> simp at h
          cases hpu : env.push <;> rw [hpu] at h <;> simp at h
          · rcases hu : env.updPushFailed with e | u <;> rw [hu] at h <;> simp at h
          · rcases hu6 : env.updCreatingPR with e | u <;> rw [hu6] at h <;> simp at h
            rcases hpr : env.createPR with e | pr <;> rw [hpr] at h <;> simp at h
            by_cases hprf : (pr.success = false ∨ optFalsy pr.prUrl = true) <;>
              simp only [hprf, if_true, if_false, ite_true, ite_false] at h
            case pos =>
              simp at h
              rcases hu : env.updPRFailed with e | u <;> rw [hu] at h <;> simp at h
            cases hpn : natFalsy pr.prNumber <;> rw [hpn] at h <;> simp at h
            · rcases hal : env.addLabels with e | u <;> rw [hal] at h <;> simp at h
              rcases hu7 : env.updDeploying with e | u <;> rw [hu7] at h <;> simp at h
              rcases hwd : env.waitDeploy with e | dep <;> rw [hwd] at h <;> simp at h
              cases hds1 : dep.success <;> rw [hds1] at h <;> simp at h
              · rcases hu9 : env.updPartial with e | u <;> rw [hu9] at h <;> simp at h
              · cases hds2 : optFalsy dep.url <;> rw [hds2] at h <;> simp at h
                · rcases hu8 : env.updSuccess with e | u <;> rw [hu8] at h <;> simp at h
                · rcases hu9 : env.updPartial with e | u <;> rw [hu9] at h <;> simp at h
            · rcases hu7 : env.updDeploying with e | u <;> rw [hu7] at h <;> simp at h
              rcases hwd : env.waitDeploy with e | dep <;> rw [hwd] at h <;> simp at h
              cases hds1 : dep.success <;> rw [hds1] at h <;> simp at h
              · rcases hu9 : env.updPartial with e | u <;> rw [hu9] at h <;> simp at h
              · cases hds2 : optFalsy dep.url <;> rw [hds2] at h <;> simp at h
                · rcases hu8 : env.updSuccess with e | u <;> rw [hu8] at h <;> simp at h
                · rcases hu9 : env.updPartial with e | u <;> rw [hu9] at h <;> simp at h

/-! ## Claim C1 -/

/-- Claim C1 counterexample: when a pipeline stage raises while both the
catch-block status edit and the fallback post raise as well,
`processIssue` propagates the fallback exception to its caller. -/
theorem processIssue_catch_counterexample :
    (processIssue wJob c1Env).1 = Except.error "post failed too" := rfl

/-- Claim C1 (amended): every exception raised inside the try block is
caught; the resulting job is `failed` carrying the raised message, with
the status edit attempted whenever a status message exists and exactly
one fallback message posted when the edit raises — except that the
exception propagates out of `processIssue` in the single case where the
status edit and then the fallback post both raise themselves. -/
theorem processIssue_catch_behavior (job : IssueJob) (env : Env) (e : String)
    (ts : Option String) (tr : List Op) (h : processTry job env = ⟨Except.error e, ts, tr⟩) :
    ((env.catchUpdate = Except.ok () ∨ env.catchPost = Except.ok () ∨ tsTruthy ts = false) →
      (processIssue job env).1 = Except.ok (failedRes job e, PipelineExit.caught)) ∧
      (tsTruthy ts = true → (∃ e1, env.catchUpdate = Except.error e1) →
        (processIssue job env).2 = tr ++ [Op.updateMessage, Op.postMessage]) ∧
      (∀ e1 e2, env.catchUpdate = Except.error e1 → env.catchPost = Except.error e2 →
        tsTruthy ts = true → (processIssue job env).1 = Except.error e2) := by
  unfold processIssue
  rw [h]
  unfold runCatch
  refine ⟨?_, ?_, ?_⟩
  · intro hok
    rcases hts : tsTruthy ts with _ | _
    · simp [hts]
    · rcases hcu : env.catchUpdate with e1 | u
      · rcases hcp : env.catchPost with e2 | u
        · rcases hok with hok | hok | hok
          · rw [hcu] at hok; exact absurd hok (by simp)
          · rw [hcp] at hok; exact absurd hok (by simp)
          · rw [hts] at hok; exact absurd hok (by simp)
        · simp [hts, hcu, hcp]
      · simp [hts, hcu]
  · intro hts ⟨e1, hcu⟩
    rcases hcp : env.catchPost with e2 | u <;> simp [hts, hcu, hcp]
  · intro e1 e2 hcu hcp hts
    simp [hts, hcu, hcp]

/-- Claim C1 witness: a raise at repository initialization with a
healthy catch-block edit yields the failed JobResult, and with a raising
edit exactly one fallback message is posted. -/
theorem processIssue_catch_witness :
    processTry wJob c1wEnv =
      ⟨Except.error "boom", some "111",
        [Op.addReaction "eyes", Op.postMessage, Op.updateMessage, Op.initRepo]⟩ ∧
      (processIssue wJob c1wEnv).1 = Except.ok (failedRes wJob "boom", PipelineExit.caught) ∧
      (processIssue wJob c1Env).2 =
        [Op.addReaction "eyes", Op.postMessage, Op.updateMessage, Op.initRepo] ++
          [Op.updateMessage, Op.postMessage] :=
  ⟨rfl,
    (processIssue_catch_behavior wJob c1wEnv "boom" (some "111")
      [Op.addReaction "eyes", Op.postMessage, Op.updateMessage, Op.initRepo] rfl).1
      (Or.inl rfl),
    (processIssue_catch_behavior wJob c1Env "boom" (some "111")
      [Op.addReaction "eyes", Op.postMessage, Op.updateMessage, Op.initRepo] rfl).2.1
      (by decide) ⟨"edit failed", rfl⟩⟩

/-! ## Claim C2 -/

/-- Claim C2 counterexample: a generation failure whose FixResult
carries no error text produces a JobResult with status `failed` and an
absent error field. -/
theorem failed_without_error_counterexample :
    (processIssue wJob c2Env).1 =
      Except.ok ({ jobId := "j1", status := JobStatus.failed, error := none },
        PipelineExit.analysisFailed) := rfl

/-- Claim C2 (amended): failed JobResults arise only at the
generation-, branch-, commit-, push-failure and top-level-catch exits,
and each carries the failing stage error value: at the push-failure
exit the fixed push message and at the catch exit the raised message
(both present); the generation-, branch- and commit-failure exits pass
the upstream optional error text through unchanged and may leave the
field absent. -/
theorem jobResult_failed_error_field (job : IssueJob) (env : Env) (r : JobResult)
    (ex : PipelineExit) (h : (processIssue job env).1 = Except.ok (r, ex)) :
    (ex = PipelineExit.analysisFailed → r.status = JobStatus.failed ∧
      ∃ fr, env.analyze = Except.ok fr ∧ fr.success = false ∧ r.error = fr.error) ∧
      (ex = PipelineExit.branchFailed → r.status = JobStatus.failed ∧
        r.error = env.createBranch.error) ∧
      (ex = PipelineExit.commitFailed → r.status = JobStatus.failed ∧
        r.error = env.commit.error) ∧
      (ex = PipelineExit.pushFailed → r.status = JobStatus.failed ∧
        r.error = some "Failed to push to remote") ∧
      (ex = PipelineExit.caught → r.status = JobStatus.failed ∧ r.error.isSome = true) ∧
      (r.status = JobStatus.failed → ex = PipelineExit.analysisFailed ∨
        ex = PipelineExit.branchFailed ∨ ex = PipelineExit.commitFailed ∨
        ex = PipelineExit.pushFailed ∨ ex = PipelineExit.caught) := by
  simp only [processIssue] at h
  rcases hres : (processTry job env).res with e | v <;> rw [hres] at h <;> simp at h
  · obtain ⟨hr, hex⟩ := runCatch_ok _ _ _ _ _ _ h
    subst hr
    subst hex
    refine ⟨fun hx => by simp at hx, fun hx => by simp at hx, fun hx => by simp at hx,
      fun hx => by simp at hx, fun _ => ⟨rfl, rfl⟩,
      fun _ => Or.inr (Or.inr (Or.inr (Or.inr rfl)))⟩
  · obtain rfl := h
    obtain ⟨c1, c2, c3, c4, c5, c6⟩ := processTry_exits job env r ex hres
    refine ⟨c1, c2, c3, c4, fun hx => absurd hx c5, fun hst => ?_⟩
    rcases c6 hst with hx | hx | hx | hx
    · exact Or.inl hx
    · exact Or.inr (Or.inl hx)
    · exact Or.inr (Or.inr (Or.inl hx))
    · exact Or.inr (Or.inr (Or.inr (Or.inl hx)))

/-- Claim C2 witness: the amended claim at three concrete runs — the
push-failure exit carries the fixed present error text, the
generation-failure exit passes the absent upstream error through, and
the catch exit carries the raised message. -/
theorem jobResult_failed_error_field_witness :
    (pushFailRes.status = JobStatus.failed ∧
      pushFailRes.error = some "Failed to push to remote") ∧
      (c2Res.status = JobStatus.failed ∧
        ∃ fr, c2Env.analyze = Except.ok fr ∧ fr.success = false ∧ c2Res.error = fr.error) ∧
      (failedRes wJob "boom").status = JobStatus.failed ∧
      (failedRes wJob "boom").error.isSome = true :=
  ⟨(jobResult_failed_error_field wJob pushFailEnv pushFailRes PipelineExit.pushFailed
      rfl).2.2.2.1 rfl,
    (jobResult_failed_error_field wJob c2Env c2Res PipelineExit.analysisFailed rfl).1 rfl,
    (jobResult_failed_error_field wJob c1wEnv (failedRes wJob "boom") PipelineExit.caught
      rfl).2.2.2.2.1 rfl⟩

/-! ## Claim C4 -/

/-- Claim C4: a successful generation with an empty changed-file list
ends the job as `completed` carrying the FixResult, with no branch
name, PR url or preview url, and no branch-creation, commit, push or
PR operation is ever issued. -/
theorem processIssue_noActionableChange (job : IssueJob) (env : Env) (ts : String)
    (fr : FixResult) (hpost : env.postStatus = Except.ok ts)
    (hclone : env.updCloning = Except.ok ()) (hinit : env.initRepo = Except.ok ())
    (hrun : env.updRunning = Except.ok ()) (hana : env.analyze = Except.ok fr)
    (hsu : fr.success = true) (hfc : fr.filesChanged = [])
    (hupd : env.updNoChanges = Except.ok ()) :
    processIssue job env =
      (Except.ok ({ jobId := job.id, status := JobStatus.completed, result := some fr },
          PipelineExit.noActionableChange),
        [Op.addReaction "eyes", Op.postMessage, Op.updateMessage, Op.initRepo, Op.updateMessage,
          Op.analyze, Op.updateMessage]) ∧
      ∀ o ∈ (processIssue job env).2,
        (∀ bo, o ≠ Op.createBranch bo) ∧ (∀ gfs, o ≠ Op.commit gfs) ∧
          (∀ b, o ≠ Op.push b) ∧ (∀ b t, o ≠ Op.createPR b t) := by
  have key : processIssue job env =
      (Except.ok ({ jobId := job.id, status := JobStatus.completed, result := some fr },
          PipelineExit.noActionableChange),
        [Op.addReaction "eyes", Op.postMessage, Op.updateMessage, Op.initRepo, Op.updateMessage,
          Op.analyze, Op.updateMessage]) := by
    unfold processIssue processTry
    simp [hpost, hclone, hinit, hrun, hana, hsu, hfc, hupd]
  refine ⟨key, ?_⟩
  intro o ho
  rw [key] at ho
  simp at ho
  refine ⟨?_, ?_, ?_, ?_⟩ <;> intros <;> intro hk <;> subst hk <;> simp at ho

/-- Claim C4 witness: the concrete no-changes run. -/
theorem processIssue_noActionableChange_witness :
    processIssue wJob c4Env =
      (Except.ok ({ jobId := "j1", status := JobStatus.completed, result := some c4Fix },
          PipelineExit.noActionableChange),
        [Op.addReaction "eyes", Op.postMessage, Op.updateMessage, Op.initRepo, Op.updateMessage,
          Op.analyze, Op.updateMessage]) :=
  (processIssue_noActionableChange wJob c4Env "111" c4Fix rfl rfl rfl rfl rfl rfl rfl rfl).1

/-! ## Claim C5 -/

/-- Claim C5 counterexample: a PR-creation failure whose result carries
no error text yields a `completed` JobResult with branch name present
but the error field absent, refuting that the error text is always
present at this exit. -/
theorem prFailed_without_error_counterexample :
    (processIssue wJob c5Env).1 =
      Except.ok ({ jobId := "j1", status := JobStatus.completed,
                   branchName := some "fix/fix-the-bug", result := some wFix, error := none },
        PipelineExit.prFailed) := rfl

/-- Claim C5 (amended): when branch creation, commit and push succeed
but PR creation fails (unsuccessful result or absent PR url), the job
ends `completed` with no PR url, the branch name present, and the error
field equal to the PR result error text — present exactly when the PR
result carries one. -/
theorem processIssue_prFailed (job : IssueJob) (env : Env) (ts : String) (fr : FixResult)
    (bn : String) (pr : GitHubPRResult) (hpost : env.postStatus = Except.ok ts)
    (hclone : env.updCloning = Except.ok ()) (hinit : env.initRepo = Except.ok ())
    (hrun : env.updRunning = Except.ok ()) (hana : env.analyze = Except.ok fr)
    (hsu : fr.success = true) (hfc : fr.filesChanged ≠ [])
    (hucb : env.updCreatingBranch = Except.ok ())
    (hbs : env.createBranch.success = true) (hbn : env.createBranch.branchName = some bn)
    (hbne : bn ≠ "") (huc : env.updCommitting = Except.ok ())
    (hcs : env.commit.success = true) (hup : env.updPushing = Except.ok ())
    (hpush : env.push = true) (hupr : env.updCreatingPR = Except.ok ())
    (hpr : env.createPR = Except.ok pr)
    (hprf : pr.success = false ∨ optFalsy pr.prUrl = true)
    (huf : env.updPRFailed = Except.ok ()) :
    (processIssue job env).1 =
      Except.ok ({ jobId := job.id, status := JobStatus.completed, result := some fr,
                   branchName := some bn, error := pr.error }, PipelineExit.prFailed) := by
  unfold processIssue processTry
  rcases hprf with hprf | hprf <;>
    simp [hpost, hclone, hinit, hrun, hana, hsu, hfc, hucb, hbs, hbn, hbne, huc, hcs,
      hup, hpush, hupr, hpr, hprf, huf]

/-- Claim C5 witness: the concrete PR-failure run with error text. -/
theorem processIssue_prFailed_witness :
    (processIssue wJob c5wEnv).1 =
      Except.ok ({ jobId := "j1", status := JobStatus.completed, result := some wFix,
                   branchName := some "fix/fix-the-bug", error := some "422 validation" },
        PipelineExit.prFailed) :=
  processIssue_prFailed wJob c5wEnv "111" wFix "fix/fix-the-bug"
    { success := false, error := some "422 validation" } rfl rfl rfl rfl rfl rfl (by decide)
    rfl rfl rfl (by decide) rfl rfl rfl rfl rfl rfl (Or.inl rfl) rfl

/-! ## Claim C6 -/

/-- Claim C6: when generation succeeds with changed files, branching and
commit succeed but the push returns false, the job ends `failed` with
the fixed push-failure error text (which mentions the push) and the
successful FixResult still attached. -/
theorem processIssue_pushFailed (job : IssueJob) (env : Env) (ts : String) (fr : FixResult)
    (bn : String) (hpost : env.postStatus = Except.ok ts)
    (hclone : env.updCloning = Except.ok ()) (hinit : env.initRepo = Except.ok ())
    (hrun : env.updRunning = Except.ok ()) (hana : env.analyze = Except.ok fr)
    (hsu : fr.success = true) (hfc : fr.filesChanged ≠ [])
    (hucb : env.updCreatingBranch = Except.ok ())
    (hbs : env.createBranch.success = true) (hbn : env.createBranch.branchName = some bn)
    (hbne : bn ≠ "") (huc : env.updCommitting = Except.ok ())
    (hcs : env.commit.success = true) (hup : env.updPushing = Except.ok ())
    (hpush : env.push = false) (hupf : env.updPushFailed = Except.ok ()) :
    (processIssue job env).1 =
      Except.ok ({ jobId := job.id, status := JobStatus.failed, result := some fr,
                   error := some "Failed to push to remote" }, PipelineExit.pushFailed) ∧
      strIncludes "Failed to push to remote" "push" = true := by
  constructor
  · unfold processIssue processTry
    simp [hpost, hclone, hinit, hrun, hana, hsu, hfc, hucb, hbs, hbn, hbne, huc, hcs, hup,
      hpush, hupf]
  · decide

/-- Claim C6 witness: the concrete push-failure run. -/
theorem processIssue_pushFailed_witness :
    (processIssue wJob pushFailEnv).1 =
      Except.ok ({ jobId := "j1", status := JobStatus.failed, result := some wFix,
                   error := some "Failed to push to remote" }, PipelineExit.pushFailed) ∧
      strIncludes "Failed to push to remote" "push" = true :=
  processIssue_pushFailed wJob pushFailEnv "111" wFix "fix/fix-the-bug" rfl rfl rfl rfl rfl
    rfl (by decide) rfl rfl rfl (by decide) rfl rfl rfl rfl rfl

/-! ## Claim C7 -/

/-- Claim C7: when staging succeeds, the repository status reports zero
changed files and the current-branch re-read succeeds, `commitChanges`
returns success with that current branch name and issues no commit
operation; when the re-read inside `getCurrentBranch` throws instead,
the enclosing catch converts it into a `success := false` result,
still with no commit issued; and the enclosing job never takes the
commit-failure exit while the commit result is successful. -/
theorem commitChanges_noStagedChanges (env : CommitEnv) (message : String)
    (files : List String) (hadd : env.addOutcome = Except.ok ())
    (hstat : env.statusOutcome = Except.ok ()) (hfiles : env.statusFiles = []) :
    (∀ current, getCurrentBranch env = Except.ok current →
      commitChanges true env message files =
        Except.ok ({ success := true, hash := none, branch := some current, error := none },
          [if files.length > 0 then GitOp.stageFiles files else GitOp.stageAll,
            GitOp.gitStatus, GitOp.gitStatus]) ∧
        ∀ res tr, commitChanges true env message files = Except.ok (res, tr) →
          GitOp.gitCommit ∉ tr ∧ res.success = true ∧ res.branch = some current) ∧
      (∀ e, getCurrentBranch env = Except.error e →
        commitChanges true env message files =
          Except.ok ({ success := false, hash := none, branch := none, error := some e },
            [if files.length > 0 then GitOp.stageFiles files else GitOp.stageAll,
              GitOp.gitStatus, GitOp.gitStatus])) ∧
      ∀ (job : IssueJob) (penv : Env) (r : JobResult),
        (processIssue job penv).1 = Except.ok (r, PipelineExit.commitFailed) →
          penv.commit.success = false := by
  refine ⟨?_, ?_, ?_⟩
  · intro current hcur
    have key : commitChanges true env message files =
        Except.ok ({ success := true, hash := none, branch := some current, error := none },
          [if files.length > 0 then GitOp.stageFiles files else GitOp.stageAll,
            GitOp.gitStatus, GitOp.gitStatus]) := by
      unfold commitChanges
      simp [hadd, hstat, hfiles, hcur]
    refine ⟨key, ?_⟩
    intro res tr h
    rw [key] at h
    simp at h
    obtain ⟨hres, htr⟩ := h
    subst hres
    subst htr
    refine ⟨?_, rfl, rfl⟩
    intro hmem
    rcases List.mem_cons.mp hmem with hk | hk
    · revert hk
      split <;> simp
    · simp at hk
  · intro e hcur
    unfold commitChanges
    simp [hadd, hstat, hfiles, hcur]
  · intro job penv r h
    simp only [processIssue] at h
    rcases hres : (processTry job penv).res with e | v <;> rw [hres] at h <;> simp at h
    · obtain ⟨_, hex⟩ := runCatch_ok _ _ _ _ _ _ h
      exact absurd hex (by simp)
    · obtain rfl := h
      exact processTry_commitFailed job penv r hres

/-- Claim C7 witness: the concrete clean-staging commit, the concrete
run whose current-branch re-read throws, and a concrete commit-failure
run. -/
theorem commitChanges_noStagedChanges_witness :
    commitChanges true cleanCommitEnv "msg" ["x.ts", "y.ts"] =
      Except.ok ({ success := true, hash := none, branch := some "fix/fix-the-bug",
                   error := none },
        [if (["x.ts", "y.ts"] : List String).length > 0 then GitOp.stageFiles ["x.ts", "y.ts"]
          else GitOp.stageAll, GitOp.gitStatus, GitOp.gitStatus]) ∧
      commitChanges true statusThrowEnv "msg" ["x.ts", "y.ts"] =
        Except.ok ({ success := false, hash := none, branch := none,
                     error := some "status read failed" },
          [if (["x.ts", "y.ts"] : List String).length > 0 then
              GitOp.stageFiles ["x.ts", "y.ts"] else GitOp.stageAll,
            GitOp.gitStatus, GitOp.gitStatus]) ∧
      c7bEnv.commit.success = false :=
  ⟨((commitChanges_noStagedChanges cleanCommitEnv "msg" ["x.ts", "y.ts"] rfl rfl rfl).1
      "fix/fix-the-bug" rfl).1,
    (commitChanges_noStagedChanges statusThrowEnv "msg" ["x.ts", "y.ts"] rfl rfl rfl).2.1
      "status read failed" rfl,
    (commitChanges_noStagedChanges cleanCommitEnv "msg" ["x.ts", "y.ts"] rfl rfl rfl).2.2
      wJob c7bEnv { jobId := "j1", status := JobStatus.failed, result := some wFix,
                    error := some "cfail" } rfl⟩

/-! ## Claim C8 -/

/-- Claim C8: with a non-empty file list `commitChanges` stages exactly
those files and never stages everything; the stage-all operation is
issued only when the list is empty; and the processor only ever invokes
the commit operation with the (then non-empty) changed-file list of the
FixResult. -/
theorem commitChanges_stages_exact_files :
    (∀ (init : Bool) (env : CommitEnv) (message : String) (files : List String)
        (res : GitCommitResult) (tr : List GitOp), files ≠ [] →
        commitChanges init env message files = Except.ok (res, tr) →
        GitOp.stageFiles files ∈ tr ∧ GitOp.stageAll ∉ tr ∧
          ∀ gs, GitOp.stageFiles gs ∈ tr → gs = files) ∧
      (∀ (init : Bool) (env : CommitEnv) (message : String) (files : List String)
        (res : GitCommitResult) (tr : List GitOp),
        commitChanges init env message files = Except.ok (res, tr) →
        GitOp.stageAll ∈ tr → files = []) ∧
      ∀ (job : IssueJob) (penv : Env) (fs : List String),
        Op.commit fs ∈ (processIssue job penv).2 → fs ≠ [] := by
  have stage : ∀ (init : Bool) (env : CommitEnv) (message : String) (files : List String)
      (res : GitCommitResult) (tr : List GitOp),
      commitChanges init env message files = Except.ok (res, tr) →
      tr.head? = some (if files.length > 0 then GitOp.stageFiles files else GitOp.stageAll) ∧
        ∀ o ∈ tr.tail, o = GitOp.gitStatus ∨ o = GitOp.gitCommit := by
    intro init env message files res tr h
    unfold commitChanges at h
    cases init <;> simp at h
    rcases ha : env.addOutcome with e | u <;> rw [ha] at h <;> simp at h
    · obtain ⟨_, htr⟩ := h
      subst htr
      simp
    · rcases hs : env.statusOutcome with e | u <;> rw [hs] at h <;> simp at h
      · obtain ⟨_, htr⟩ := h
        subst htr
        simp
      · by_cases hz : env.statusFiles = [] <;> simp [hz] at h
        · rcases hcur : getCurrentBranch env with e | cur <;> rw [hcur] at h <;> simp at h
          · obtain ⟨_, htr⟩ := h
            subst htr
            simp
          · obtain ⟨_, htr⟩ := h
            subst htr
            simp
        · rcases hc : env.commitOutcome with e | hsh <;> rw [hc] at h <;> simp at h
          · obtain ⟨_, htr⟩ := h
            subst htr
            simp
          · rcases hcur : getCurrentBranch env with e | cur <;> rw [hcur] at h <;> simp at h
            · obtain ⟨_, htr⟩ := h
              subst htr
              simp
            · obtain ⟨_, htr⟩ := h
              subst htr
              simp
  refine ⟨?_, ?_, ?_⟩
  · intro init env message files res tr hne h
    obtain ⟨hhead, htail⟩ := stage init env message files res tr h
    have hlen : files.length > 0 := List.length_pos.mpr hne
    rw [if_pos hlen] at hhead
    cases tr with
    | nil => simp at hhead
    | cons a t =>
      simp at hhead
      subst hhead
      refine ⟨List.mem_cons_self _ _, ?_, ?_⟩
      · intro hmem
        rcases List.mem_cons.mp hmem with hk | hk
        · exact absurd hk.symm (by simp)
        · rcases htail _ hk with h1 | h1 <;> exact absurd h1 (by simp)
      · intro gs hmem
        rcases List.mem_cons.mp hmem with hk | hk
        · exact (GitOp.stageFiles.injEq gs files).mp (by rw [hk])
        · rcases htail _ hk with h1 | h1 <;> exact absurd h1 (by simp)
  · intro init env message files res tr h hmem
    obtain ⟨hhead, htail⟩ := stage init env message files res tr h
    by_cases hne : files = []
    · exact hne
    · have hlen : files.length > 0 := List.length_pos.mpr hne
      rw [if_pos hlen] at hhead
      cases tr with
      | nil => simp at hhead
      | cons a t =>
        simp at hhead
        subst hhead
        rcases List.mem_cons.mp hmem with hk | hk
        · exact absurd hk (by simp)
        · rcases htail _ hk with h1 | h1 <;> exact absurd h1 (by simp)
  · intro job penv fs h
    simp only [processIssue] at h
    rcases hres : (processTry job penv).res with e | v <;> rw [hres] at h <;> simp at h
    · rcases h with h | h
      · obtain ⟨fr, _, rfl, hfc⟩ := processTry_commit_mem job penv fs h
        exact hfc
      · exact absurd h (runCatch_no_commit _ _ _ _ _)
    · obtain ⟨fr, _, rfl, hfc⟩ := processTry_commit_mem job penv fs h
      exact hfc

/-- Claim C8 witness: concrete staging of a two-file commit and the
commit operation of the concrete full run. -/
theorem commitChanges_stages_exact_files_witness :
    (GitOp.stageFiles ["x.ts", "y.ts"] ∈
        [GitOp.stageFiles ["x.ts", "y.ts"], GitOp.gitStatus, GitOp.gitStatus] ∧
      GitOp.stageAll ∉ [GitOp.stageFiles ["x.ts", "y.ts"], GitOp.gitStatus, GitOp.gitStatus] ∧
      ∀ gs, GitOp.stageFiles gs ∈
          [GitOp.stageFiles ["x.ts", "y.ts"], GitOp.gitStatus, GitOp.gitStatus] →
        gs = ["x.ts", "y.ts"]) ∧
      (["x.ts", "y.ts"] : List String) ≠ [] :=
  ⟨commitChanges_stages_exact_files.1 true cleanCommitEnv "msg" ["x.ts", "y.ts"]
      { success := true, hash := none, branch := some "fix/fix-the-bug", error := none }
      [GitOp.stageFiles ["x.ts", "y.ts"], GitOp.gitStatus, GitOp.gitStatus] (by decide) rfl,
    commitChanges_stages_exact_files.2.2 wJob wEnvBase ["x.ts", "y.ts"] (by decide)⟩

end ClaudeSlackbot
